import Mathlib

/-!
# SplitDex: shallow embedding and verification

A shallow embedding of the SplitDex streaming re-indexing pipeline
(`splitdex.py`, `src/controller/SdCtrl.py`, `src/utility/SdUtility.py`,
`src/utility/SdValidator.py`, `src/library/SdElastic.py`) together with
proofs and refutations of the specification's claims about it.

Python values flowing through the pipeline (Elasticsearch hits, nested
`_source` maps, `None`) are modelled by `JVal`; Python exceptions by
`Except Unit`; the external Elasticsearch capabilities (connect, ping,
bulk) by explicit oracles; the unbounded `while` retry loop by a fuel
parameter (`result = none` means the loop was still running when fuel
ran out, i.e. the call has not returned within that many iterations).
-/

namespace SplitDex

/-- JSON-like values as handled by the Python code: `None`, integers,
strings and dicts (modelled as association lists in insertion order). -/
inductive JVal : Type where
  | vnull : JVal
  | vint : Int → JVal
  | vstr : String → JVal
  | vobj : List (String × JVal) → JVal

/-- First-match lookup in a dict, with a default: `d.get(k, dflt)`
for `d` known to be a dict. -/
def alistGet (fs : List (String × JVal)) (k : String) (dflt : JVal) : JVal :=
  match fs with
  | [] => dflt
  | (k', v) :: rest => if k' = k then v else alistGet rest k dflt

/-- `d.get(k, dflt)` on an arbitrary Python value: raises
`AttributeError` when `d` is not a dict. -/
def pyGet (d : JVal) (k : String) (dflt : JVal) : Except Unit JVal :=
  match d with
  | .vobj fs => .ok (alistGet fs k dflt)
  | _ => .error ()

/-- Python `str.split(sep)` for a one-character separator, over the
character list: `"a.b" ↦ [['a'],['b']]`, `"" ↦ [[]]`, `"a..b" ↦ [['a'],[],['b']]`. -/
def splitOnCharAux (c : Char) : List Char → List (List Char)
  | [] => [[]]
  | a :: rest =>
    match splitOnCharAux c rest with
    | h :: t => if a = c then [] :: h :: t else (a :: h) :: t
    | [] => [[a]]

/-- Python `str.split(sep)` for a one-character separator. -/
def pySplit (s : String) (c : Char) : List String :=
  (splitOnCharAux c s.data).map (fun l => ⟨l⟩)

/-! ## Calendar arithmetic

`datetime.fromtimestamp` / `datetime(...).timestamp()` reduce, for the
date-only uses in this code base, to conversions between Gregorian civil
dates and days since the Unix epoch (the standard civil-from-days /
days-from-civil algorithms). -/

/-- Days since 1970-01-01 of the Gregorian date `y-m-d`
(what `datetime(y, m, d, tzinfo=utc).timestamp() / 86400` computes). -/
def daysFromCivil (y m d : Int) : Int :=
  let y' := if m ≤ 2 then y - 1 else y
  let era := Int.fdiv y' 400
  let yoe := y' - era * 400
  let mp := if m ≤ 2 then m + 9 else m - 3
  let doy := (153 * mp + 2) / 5 + d - 1
  let doe := yoe * 365 + yoe / 4 - yoe / 100 + doy
  era * 146097 + doe - 719468

/-- Gregorian date `(y, m, d)` of a count of days since 1970-01-01
(what `datetime.fromtimestamp` computes for the date components). -/
def civilFromDays (z0 : Int) : Int × Int × Int :=
  let z := z0 + 719468
  let era := Int.fdiv z 146097
  let doe := z - era * 146097
  let yoe := (doe - doe / 1460 + doe / 36524 - doe / 146096) / 365
  let y := yoe + era * 400
  let doy := doe - (365 * yoe + yoe / 4 - yoe / 100)
  let mp := (5 * doy + 2) / 153
  let d := doy - (153 * mp + 2) / 5 + 1
  let m := if mp < 10 then mp + 3 else mp - 9
  (if m ≤ 2 then y + 1 else y, m, d)

/-- Zero-padded two-digit decimal rendering (`strftime` `%m` / `%d`). -/
def pad2 (n : Int) : String :=
  let s := toString n.toNat
  if s.length < 2 then "0" ++ s else s

/-- Zero-padded four-digit decimal rendering (`strftime` `%Y`). -/
def pad4 (n : Int) : String :=
  let s := toString n.toNat
  if s.length = 1 then "000" ++ s
  else if s.length = 2 then "00" ++ s
  else if s.length = 3 then "0" ++ s
  else s

/-- `DateFormatter.formateDate(date, fmt)`: renders the date through one
of the four supported `strftime` patterns, raising `ValueError` on any
other format string. -/
def formateDate (y m d : Int) (fmt : String) : Except Unit String :=
  if fmt = "YYYYmm" then .ok (pad4 y ++ pad2 m)
  else if fmt = "YYYYmmdd" then .ok (pad4 y ++ pad2 m ++ pad2 d)
  else if fmt = "YYYY-mm-dd" then .ok (pad4 y ++ "-" ++ pad2 m ++ "-" ++ pad2 d)
  else if fmt = "ddmmYYYY" then .ok (pad2 d ++ pad2 m ++ pad4 y)
  else .error ()

/-! ## `src/utility/SdUtility.py` -/

/-- `getNestedValue(data, keys)`: walks a dot-separated path through
nested dicts; any missing key or non-dict intermediate yields `None`. -/
def getNestedValue (data : JVal) (keys : String) : JVal :=
  (pySplit keys '.').foldl
    (fun dv key =>
      match dv with
      | JVal.vobj fs => alistGet fs key JVal.vnull
      | _ => JVal.vnull)
    data

/-- `timestampToDate(timestamp, fmt)`: `datetime.fromtimestamp` (which
uses the process-local timezone, here the explicit offset `tz` in
seconds) followed by `DateFormatter.formateDate`. Raises when the
timestamp is not a number (`None`, a string, a dict) or out of
`datetime`'s year range. -/
def timestampToDate (tz : Int) (ts : JVal) (fmt : String) : Except Unit String :=
  match ts with
  | JVal.vint n =>
    let ymd := civilFromDays (Int.fdiv (n + tz) 86400)
    if ymd.1 < 1 ∨ 9999 < ymd.1 then .error ()
    else formateDate ymd.1 ymd.2.1 ymd.2.2 fmt
  | _ => .error ()

/-- Decimal digit-string accumulator for `pyInt`. -/
def digitsToNatAux : List Char → Nat → Option Nat
  | [], acc => some acc
  | c :: rest, acc =>
    if '0' ≤ c ∧ c ≤ '9' then digitsToNatAux rest (acc * 10 + (c.toNat - 48))
    else none

/-- Python `int(s)` on a plain decimal string (optional leading minus);
`none` models the `ValueError` raised on anything else. -/
def pyInt (s : String) : Option Int :=
  match s.data with
  | [] => none
  | '-' :: rest =>
    match rest with
    | [] => none
    | _ => (digitsToNatAux rest 0).map (fun n => -(n : Int))
  | l => (digitsToNatAux l 0).map (fun n => (n : Int))

/-- Length of month `m` of year `y` (the validity check `datetime(y, m, d)`
performs). -/
def monthLen (y m : Int) : Int :=
  if m = 2 then (if y % 4 = 0 ∧ (y % 100 ≠ 0 ∨ y % 400 = 0) then 29 else 28)
  else if m = 4 ∨ m = 6 ∨ m = 9 ∨ m = 11 then 30 else 31

/-- `dateToEpoch(dates, millis)`: parses a `"YYYY-MM-DD"` string and
returns `int(datetime(y, m, d, tzinfo=utc).timestamp())`, times 1000
when `millis` is true; returns `None` for non-string input; raises
(`ValueError`) when the string does not split into three integers or
does not denote a valid `datetime` date. -/
def dateToEpoch (dates : Option String) (millis : Bool) : Except Unit (Option Int) :=
  match dates with
  | some s =>
    match (pySplit s '-').map pyInt with
    | [some y, some m, some d] =>
      if 1 ≤ y ∧ y ≤ 9999 ∧ 1 ≤ m ∧ m ≤ 12 ∧ 1 ≤ d ∧ d ≤ monthLen y m then
        let epoch := daysFromCivil y m d * 86400
        .ok (some (if millis then epoch * 1000 else epoch))
      else .error ()
    | _ => .error ()
  | none => .ok none

/-- Python truthiness of the configured bound strings (`None` and `""`
are falsy). -/
def truthyStr : Option String → Bool
  | some s => !(s == "")
  | none => false

/-- Python `a >= b` on pipeline values: defined for int/int and str/str,
raises `TypeError` otherwise (in particular against `None`). -/
def pyGE (a b : JVal) : Except Unit Bool :=
  match a, b with
  | .vint x, .vint y => .ok (decide (y ≤ x))
  | .vstr x, .vstr y => .ok (!(decide (x < y)))
  | _, _ => .error ()

/-- Python `a <= b` on pipeline values (see `pyGE`). -/
def pyLE (a b : JVal) : Except Unit Bool :=
  match a, b with
  | .vint x, .vint y => .ok (decide (x ≤ y))
  | .vstr x, .vstr y => .ok (!(decide (y < x)))
  | _, _ => .error ()

/-- `validateTimestampQuery(gte, lte, timestamp, gte_threshold, lte_threshold)`:
checks the raw timestamp against whichever bounds are truthy, with
Python's short-circuit `and`; yields `None` (modelled `Option.none`)
when neither bound is configured; comparisons against mismatched types
raise. -/
def validateTimestampQuery (gte lte : Option String) (ts gteT lteT : JVal) :
    Except Unit (Option Bool) :=
  if truthyStr gte && truthyStr lte then do
    let b1 ← pyGE ts gteT
    if b1 then do
      let b2 ← pyLE ts lteT
      .ok (some b2)
    else .ok (some false)
  else if truthyStr gte then do
    let b ← pyGE ts gteT
    .ok (some b)
  else if truthyStr lte then do
    let b ← pyLE ts lteT
    .ok (some b)
  else .ok none

/-- `templateIndex(index, date) = f"{index}-{date}"`. -/
def templateIndex (index date : String) : String := index ++ "-" ++ date

/-- `numProcess() = max(1, int(cpu_count() * 0.75))`, as a function of the
machine's CPU count. -/
def numProcess (cpuCount : Nat) : Nat := max 1 (cpuCount * 3 / 4)

/-! ## `src/controller/SdCtrl.py` -/

/-- The validated configuration the pipeline consumes (`SdConfig`). -/
structure SdCfg : Type where
  usedQuery : String
  gte : Option String
  lte : Option String
  isoFormat : Option String
  esField : String
  esIndexName : String
  formatDate : String
  batchSize : Nat
  maxRetryConnection : Nat

/-- A raw configured bound as the value stored on the controller
(`self.gte` / `self.lte`): a string, an epoch int, or `None`. -/
def optToJVal : Option String → JVal
  | some s => JVal.vstr s
  | none => JVal.vnull

/-- An epoch conversion result as stored on the controller. -/
def epochToJVal : Option Int → JVal
  | some n => JVal.vint n
  | none => JVal.vnull

/-- The `(self.gte, self.lte)` thresholds `getData` leaves on the
controller for the Mapper's re-validation: `None` when no query is
used; `dateToEpoch` of the configured date strings (with its default
`millis=False`) when the ISO format is `epoch_millis` or
`epoch_second`; the raw strings otherwise. An `error` result models a
`ValueError` escaping from `dateToEpoch`. -/
def getDataThresholds (cfg : SdCfg) : Except Unit (JVal × JVal) :=
  if cfg.usedQuery == "no" then .ok (JVal.vnull, JVal.vnull)
  else if cfg.isoFormat = some "epoch_millis" ∨ cfg.isoFormat = some "epoch_second" then do
    let g ← dateToEpoch cfg.gte false
    let l ← dateToEpoch cfg.lte false
    .ok (epochToJVal g, epochToJVal l)
  else .ok (optToJVal cfg.gte, optToJVal cfg.lte)

/-- The pydantic `MappingData` model: all three fields required, with
`dataId` a string and `data` a dict. -/
structure MappingData : Type where
  dataId : String
  indexName : String
  data : JVal

/-- `SdController.mappingData(data)`: extracts `_id` and `_source`,
reads the configured timestamp field, formats the destination index
name, validates the pydantic model, and in query mode re-validates the
raw timestamp against the thresholds — returning the mapped dict
(`some`) or the empty dict `{}` (`none`) for an out-of-range document.
Any raised exception is `error`. `tz` is the process-local timezone
offset used by `datetime.fromtimestamp`. -/
def mappingData (cfg : SdCfg) (tz : Int) (gteT lteT : JVal) (item : JVal) :
    Except Unit (Option MappingData) := do
  let id ← pyGet item "_id" JVal.vnull
  let source ← pyGet item "_source" (JVal.vobj [])
  let ts := getNestedValue source cfg.esField
  let date ← timestampToDate tz ts cfg.formatDate
  let indexName := templateIndex cfg.esIndexName date
  let dataId ← match id with
    | JVal.vstr s => Except.ok s
    | _ => Except.error ()
  let payload ← match source with
    | JVal.vobj _ => Except.ok source
    | _ => Except.error ()
  if cfg.usedQuery == "no" then
    .ok (some ⟨dataId, indexName, payload⟩)
  else do
    let v ← validateTimestampQuery cfg.gte cfg.lte ts gteT lteT
    match v with
    | some true => .ok (some ⟨dataId, indexName, payload⟩)
    | _ => .ok none

/-! ## `splitdex.py`: mapping a chunk -/

/-- A bulk action dict as built by `processChunk`: `mapped_data.get(...)`
yields `None` for each field when `mappingData` returned `{}`. -/
structure Action : Type where
  index : Option String
  id : Option String
  source : Option JVal

/-- `StreamingSplitDex.processChunk(chunk)`: maps every document,
skipping (with a log) any document whose mapping raised, and appends
one action per successfully returned mapping dict. -/
def processChunk (cfg : SdCfg) (tz : Int) (gteT lteT : JVal) (chunk : List JVal) :
    List Action :=
  chunk.foldl
    (fun acc item =>
      match mappingData cfg tz gteT lteT item with
      | .error _ => acc
      | .ok (some m) => acc ++ [⟨some m.indexName, some m.dataId, some m.data⟩]
      | .ok none => acc ++ [⟨none, none, none⟩])
    []

/-! ## `splitdex.py` / `SdElastic.py`: connection management

`SdElasticConnect.__init__` sets exactly the attributes `logger`,
`config`, `connectEs`, `configEs`; `connect()` assigns `connectEs`
and adds no attribute. Python attribute lookup is modelled by
membership in the instance's attribute-name list. -/

/-- The attribute names of an `SdElasticConnect` instance. -/
def sdElasticConnectAttrs : List String := ["logger", "config", "connectEs", "configEs"]

/-- An `SdElasticConnect` handle: its attribute names and whether the
underlying client's `ping()` would report the connection alive. -/
structure EsObj : Type where
  attrs : List String
  pingOk : Bool

/-- Python `hasattr`. -/
def hasattr (o : EsObj) (a : String) : Bool := o.attrs.contains a

/-- `SdElasticConnect(config)` followed by `connect()`, yielding a
handle whose liveness is `pingOk`. -/
def mkSdElasticConnect (pingOk : Bool) : EsObj := ⟨sdElasticConnectAttrs, pingOk⟩

/-- `StreamingSplitDex.ensureConnectionES()` on connection state `es`,
returning the new state together with the number of `connect()` calls
performed during this invocation (connect outcomes are abstracted as
succeeding; the claim under study concerns when a (re)connect is
attempted at all). When `es is None` a fresh handle with liveness
`pingOk` is created; afterwards the guard
`not hasattr(self.es, '_client') or not self.es._client.ping()`
decides whether `connect()` runs (again). -/
def ensureConnectionES (es : Option EsObj) (pingOk : Bool) : Option EsObj × Nat :=
  let s : EsObj × Nat :=
    match es with
    | none => (mkSdElasticConnect pingOk, 1)
    | some e0 => (e0, 0)
  if !(hasattr s.1 "_client") || !s.1.pingOk then (some s.1, s.2 + 1)
  else (some s.1, s.2)

/-! ## `splitdex.py`: the chunk producer -/

/-- One pull from the source generator: either the next document, or an
exception raised by `next()`. -/
inductive SrcEvent (α : Type) : Type where
  | yield : α → SrcEvent α
  | raiseErr : SrcEvent α

/-- The `for item in data:` loop of `chunkProducer`, over the event list
of the source stream. `stop n` is the value of `stopEvent.is_set()` as
observed after `n` documents have been consumed (the flag is set by
other threads). Returns the chunks enqueued (in order) and whether an
exception escaped the loop. On a stop-flag hit the loop breaks and the
partial chunk is discarded (the flush guard re-checks the flag); on
stream exhaustion a non-empty partial chunk is flushed. -/
def producerCore {α : Type} (B : Nat) (stop : Nat → Bool) :
    List (SrcEvent α) → List α → Nat → List (List α) → List (List α) × Bool
  | [], chunk, count, acc =>
    (acc ++ (if !chunk.isEmpty && !(stop count) then [chunk] else []), false)
  | ev :: evs, chunk, count, acc =>
    match ev with
    | .raiseErr => (acc, true)
    | .yield a =>
      if stop count then (acc, false)
      else
        let chunk' := chunk ++ [a]
        if B ≤ chunk'.length then producerCore B stop evs [] (count + 1) (acc ++ [chunk'])
        else producerCore B stop evs chunk' (count + 1) acc

/-- What `chunkProducer` leaves behind: every value put on the hand-off
queue in order (`some` a chunk, `none` a termination sentinel), whether
the producer managed to set the stop flag, and whether an exception
escaped the producer body. -/
structure ProdOut (α : Type) : Type where
  enq : List (Option (List α))
  stopFlagSet : Bool
  escaped : Bool

/-- The attribute names of a `StreamingSplitDex` instance
(set in `__init__`). -/
def streamingSplitDexAttrs : List String :=
  ["logger", "config", "es", "chunkQueue", "stopEvent", "totalSuccess", "totalFailed",
   "connection_lock"]

/-- `StreamingSplitDex.chunkProducer(data)`: runs the consume loop, on
an exception executes the handler `self.stop_event.set()` — which only
sets the flag when the instance actually has an attribute named
`stop_event`, and otherwise raises `AttributeError` out of the handler —
and in the `finally` block enqueues `nproc` termination sentinels. -/
def chunkProducer {α : Type} (B nproc : Nat) (stop : Nat → Bool) (evs : List (SrcEvent α)) :
    ProdOut α :=
  let r := producerCore B stop evs [] 0 []
  let setOk := streamingSplitDexAttrs.contains "stop_event"
  { enq := r.1.map some ++ List.replicate nproc none,
    stopFlagSet := r.2 && setOk,
    escaped := r.2 && !setOk }

/-! ## `splitdex.py`: per-chunk processing with retry -/

/-- Outcome of `processAndIndexChunk`: the returned pair (`none` when
the `while` loop was still running after the given fuel), whether the
return went through the retries-exhausted exit, the number of loop
iterations run, the number of `bulkIndex` invocations, and the recorded
backoff sleep durations. -/
structure PaicResult : Type where
  result : Option (Nat × Nat)
  exhausted : Bool
  attempts : Nat
  bulkCalls : Nat
  sleeps : List Nat

/-- The `while retry_count < max_retries` loop of
`processAndIndexChunk`. `ensureOk k` tells whether the `k`-th attempt's
`ensureConnectionES()` call succeeds; `bulkRes k actions` is the bulk
writer's outcome on the `k`-th attempt (`error` = raised). Each
successful connection pass resets `retry_count` to 0 (line 101 of the
source) before mapping; an empty action list skips the writer and
returns `(0, 0)`; a write failure increments `retry_count` from the
reset value and sleeps `2 ** retry_count` when retries remain. -/
def paicLoop (cfg : SdCfg) (tz : Int) (gteT lteT : JVal) (maxR : Nat)
    (ensureOk : Nat → Bool) (bulkRes : Nat → List Action → Except Unit (Nat × Nat))
    (chunk : List JVal) :
    Nat → Nat → Nat → Nat → List Nat → PaicResult
  | fuel, rc, k, bc, sleeps =>
    if rc < maxR then
      match fuel with
      | 0 => ⟨none, false, k, bc, sleeps⟩
      | fuel' + 1 =>
        if ensureOk k then
          let actions := processChunk cfg tz gteT lteT chunk
          if actions.isEmpty then ⟨some (0, 0), false, k + 1, bc, sleeps⟩
          else
            match bulkRes k actions with
            | .ok sf => ⟨some sf, false, k + 1, bc + 1, sleeps⟩
            | .error _ =>
              let rc' := 0 + 1
              paicLoop cfg tz gteT lteT maxR ensureOk bulkRes chunk fuel' rc' (k + 1) (bc + 1)
                (if rc' < maxR then sleeps ++ [2 ^ rc'] else sleeps)
        else
          let rc' := rc + 1
          paicLoop cfg tz gteT lteT maxR ensureOk bulkRes chunk fuel' rc' (k + 1) bc
            (if rc' < maxR then sleeps ++ [2 ^ rc'] else sleeps)
    else ⟨some (0, chunk.length), true, k, bc, sleeps⟩

/-- `processAndIndexChunk(chunk)` started in its initial state. -/
def processAndIndexChunk (cfg : SdCfg) (tz : Int) (gteT lteT : JVal) (maxR : Nat)
    (ensureOk : Nat → Bool) (bulkRes : Nat → List Action → Except Unit (Nat × Nat))
    (chunk : List JVal) (fuel : Nat) : PaicResult :=
  paicLoop cfg tz gteT lteT maxR ensureOk bulkRes chunk fuel 0 0 0 []

/-! ## `splitdex.py`: the whole run (`action()`) -/

/-- The consumers' aggregation over the produced chunks: each chunk is
processed by `processAndIndexChunk` and its `(success, failed)` pair
added into the run counters (the final counter values do not depend on
the interleaving, addition being commutative, so the run is folded
sequentially). Returns `none` when some chunk's retry loop was still
running after `fuel` iterations, otherwise the totals plus whether any
chunk returned through the retries-exhausted exit. Oracles are indexed
by chunk position then attempt. -/
def runChunks (cfg : SdCfg) (tz : Int) (gteT lteT : JVal) (maxR : Nat)
    (ensureOk : Nat → Nat → Bool)
    (bulkRes : Nat → Nat → List Action → Except Unit (Nat × Nat)) (fuel : Nat) :
    List (List JVal) → Nat → Option (Nat × Nat × Bool)
  | [], _ => some (0, 0, false)
  | c :: cs, i =>
    let r := processAndIndexChunk cfg tz gteT lteT maxR (ensureOk i) (bulkRes i) c fuel
    match r.result, runChunks cfg tz gteT lteT maxR ensureOk bulkRes fuel cs (i + 1) with
    | some sf, some (bigS, bigF, anyExh) => some (sf.1 + bigS, sf.2 + bigF, r.exhausted || anyExh)
    | _, _ => none

/-- `StreamingSplitDex.action()` for a finite source stream that neither
raises nor is cancelled: compute the thresholds (`getData`), produce the
chunks, consume them all, and return the aggregated
`(totalSuccess, totalFailed)` (plus the exhaustion marker). An `error`
models a `FatalPipelineError` escaping from setup. -/
def runPipeline (cfg : SdCfg) (tz : Int) (nproc : Nat)
    (ensureOk : Nat → Nat → Bool)
    (bulkRes : Nat → Nat → List Action → Except Unit (Nat × Nat)) (fuel : Nat)
    (docs : List JVal) : Except Unit (Option (Nat × Nat × Bool)) :=
  match getDataThresholds cfg with
  | .error e => .error e
  | .ok ts =>
    let out := chunkProducer cfg.batchSize nproc (fun _ => false) (docs.map SrcEvent.yield)
    .ok (runChunks cfg tz ts.1 ts.2 cfg.maxRetryConnection ensureOk bulkRes fuel
      (out.enq.filterMap id) 0)

/-- The number of documents in the given chunks that reached the mapping
stage and were not dropped before the bulk writer, i.e. the number of
actions handed to the writer per chunk, summed. -/
def mappedActionTotal (cfg : SdCfg) (tz : Int) (gteT lteT : JVal)
    (chunks : List (List JVal)) : Nat :=
  (chunks.map (fun c => (processChunk cfg tz gteT lteT c).length)).sum

/-! ## `src/utility/SdValidator.py`: engine-config validation -/

/-- A raw ini value as consumed by `int(engine_config[key])`: the key
may be missing (`KeyError`), present but not an integer (`ValueError`),
or an integer. -/
inductive IniVal : Type where
  | missing : IniVal
  | nonInt : IniVal
  | intVal : Int → IniVal

/-- The `[engine]` section of the ini file. -/
structure EngineSection : Type where
  batch_size : IniVal
  max_retry_connection : IniVal
  format_date : Option String

/-- The members of the `DateFormats` enum. -/
def dateFormatsValues : List String := ["YYYYmm", "YYYYmmdd", "YYYY-mm-dd", "ddmmYYYY"]

/-- `SdValidator.validate_engine_config()`: returns
`(is_valid, errors)`; the validated `EngineConfig` is produced exactly
when `is_valid`. A missing key raises `KeyError`, caught only by the
outermost handler, which returns a single wrapped error; a non-integer
value or out-of-range bound appends its message and validation
continues. -/
def validate_engine_config (sec : Option EngineSection) : Bool × List String :=
  match sec with
  | none => (false, ["Missing [engine] section in config file"])
  | some s =>
    match s.batch_size with
    | .missing => (false, ["Error validating engine config: 'batch_size'"])
    | bs =>
      match s.max_retry_connection with
      | .missing => (false, ["Error validating engine config: 'max_retry_connection'"])
      | mrc =>
        match s.format_date with
        | none => (false, ["Error validating engine config: 'format_date'"])
        | some fd =>
          let errs1 := match bs with
            | .nonInt => ["batch_size must be an integer"]
            | .intVal n =>
              if n < 1 then ["batch_size must be greater than equal to 1"]
              else if n > 1000 then ["batch_size must be less than equal to 1000"]
              else []
            | .missing => []
          let errs2 := match mrc with
            | .nonInt => ["max_retry_connection must be an integer"]
            | .intVal n =>
              if n < 1 then ["max_retry_connection must be greater than to 1"]
              else if n > 10 then ["max_retry_connection must be less than equal to 10"]
              else []
            | .missing => []
          let errs3 :=
            if dateFormatsValues.contains fd then []
            else ["Invalid format_date. Must be one of: YYYYmm, YYYYmmdd, YYYY-mm-dd, ddmmYYYY"]
          let errors := errs1 ++ errs2 ++ errs3
          (errors.isEmpty, errors)

/-! ## Concrete fixtures used by witnesses and counterexamples -/

/-- A configuration running without a range query. -/
def cfgPlain : SdCfg := ⟨"no", none, none, none, "ts", "logs", "YYYYmm", 2, 1⟩

/-- A range-mode configuration with epoch-second timestamps and the
January 2024 window. -/
def cfgRange : SdCfg :=
  ⟨"yes", some "2024-01-01", some "2024-01-31", some "epoch_second", "ts", "logs", "YYYYmm", 2, 1⟩

/-- `cfgRange` with millisecond time representation configured. -/
def cfgMillis : SdCfg :=
  ⟨"yes", some "2024-01-01", some "2024-01-31", some "epoch_millis", "ts", "logs", "YYYYmm", 2, 1⟩

/-- A well-formed document (timestamp 2024-01-01T00:00:00Z, epoch seconds). -/
def docGood : JVal := .vobj [("_id", .vstr "1"), ("_source", .vobj [("ts", .vint 1704067200)])]

/-- A document with no timestamp field: its mapping raises and it is
skipped, producing no action. -/
def docNoTs : JVal := .vobj [("_id", .vstr "2"), ("_source", .vobj [])]

/-- A well-formed document whose timestamp (2024-03-01T00:00:00Z) lies
outside the `cfgRange` window. -/
def docOut : JVal := .vobj [("_id", .vstr "3"), ("_source", .vobj [("ts", .vint 1709251200)])]

/-! ## Producer lemmas -/

/-- Reference chunking: the chunk sequence `producerCore` enqueues when
the stream never raises and cancellation never triggers. -/
def chunkAux {α : Type} (B : Nat) : List α → List α → List (List α)
  | chunk, [] => if chunk.isEmpty then [] else [chunk]
  | chunk, a :: l =>
    if B ≤ (chunk ++ [a]).length then (chunk ++ [a]) :: chunkAux B [] l
    else chunkAux B (chunk ++ [a]) l

theorem producerCore_no_stop {α : Type} (B : Nat) (l : List α) :
    ∀ (chunk : List α) (count : Nat) (acc : List (List α)),
      producerCore B (fun _ => false) (l.map SrcEvent.yield) chunk count acc =
        (acc ++ chunkAux B chunk l, false) := by
  induction l with
  | nil =>
    intro chunk count acc
    by_cases h : chunk.isEmpty <;> simp [producerCore, chunkAux, h]
  | cons a l ih =>
    intro chunk count acc
    by_cases h : B ≤ (chunk ++ [a]).length
    · simp only [List.map_cons, producerCore, Bool.false_eq_true, if_false, if_pos h, chunkAux]
      rw [ih]
      simp
    · simp only [List.map_cons, producerCore, Bool.false_eq_true, if_false, if_neg h, chunkAux]
      rw [ih]

theorem chunkAux_join {α : Type} (B : Nat) :
    ∀ (l chunk : List α), (chunkAux B chunk l).flatten = chunk ++ l := by
  intro l
  induction l with
  | nil =>
    intro chunk
    by_cases h : chunk.isEmpty
    · have hc : chunk = [] := by simpa using h
      simp [chunkAux, h, hc]
    · simp [chunkAux, h]
  | cons a l ih =>
    intro chunk
    by_cases h : B ≤ (chunk ++ [a]).length
    · simp only [chunkAux, if_pos h]
      simp [ih]
    · simp only [chunkAux, if_neg h]
      simp [ih]

theorem chunkAux_length {α : Type} (B : Nat) :
    ∀ (l chunk : List α), chunk.length < B →
      (chunkAux B chunk l).length = (chunk.length + l.length + B - 1) / B := by
  intro l
  induction l with
  | nil =>
    intro chunk hlt
    by_cases h : chunk.isEmpty
    · have hc : chunk = [] := by simpa using h
      subst hc
      have h1 : chunkAux B ([] : List α) [] = [] := by simp [chunkAux]
      rw [h1]
      simp only [List.length_nil, Nat.zero_add] at hlt ⊢
      rw [Nat.div_eq_of_lt (by omega)]
    · have hc : chunk ≠ [] := by simpa using h
      have hpos : 1 ≤ chunk.length := List.length_pos.mpr hc
      have h1 : chunkAux B chunk [] = [chunk] := by simp [chunkAux, h]
      rw [h1]
      simp only [List.length_singleton, List.length_nil, Nat.add_zero]
      have he : chunk.length + B - 1 = (chunk.length - 1) + B := by omega
      rw [he, Nat.add_div_right _ (by omega), Nat.div_eq_of_lt (by omega)]
  | cons a l ih =>
    intro chunk hlt
    have hlen : (chunk ++ [a]).length = chunk.length + 1 := by simp
    by_cases h : B ≤ (chunk ++ [a]).length
    · have hfull : chunk.length + 1 = B := by omega
      have h1 : chunkAux B chunk (a :: l) = (chunk ++ [a]) :: chunkAux B [] l := by
        simp only [chunkAux, if_pos h]
      rw [h1, List.length_cons, ih [] (by simp; omega)]
      simp only [List.length_nil, List.length_cons, Nat.zero_add]
      have he : chunk.length + (l.length + 1) + B - 1 = (l.length + B - 1) + B := by omega
      rw [he, Nat.add_div_right _ (by omega)]
    · have h1 : chunkAux B chunk (a :: l) = chunkAux B (chunk ++ [a]) l := by
        simp only [chunkAux, if_neg h]
      rw [h1, ih (chunk ++ [a]) (by omega), hlen]
      congr 1
      simp only [List.length_cons]
      omega

theorem chunkAux_dropLast {α : Type} (B : Nat) :
    ∀ (l chunk : List α), chunk.length < B →
      ∀ ch ∈ (chunkAux B chunk l).dropLast, ch.length = B := by
  intro l
  induction l with
  | nil =>
    intro chunk _ ch hch
    by_cases h : chunk.isEmpty <;> simp [chunkAux, h] at hch
  | cons a l ih =>
    intro chunk hlt ch hch
    have hlen : (chunk ++ [a]).length = chunk.length + 1 := by simp
    by_cases h : B ≤ (chunk ++ [a]).length
    · have hfull : (chunk ++ [a]).length = B := by omega
      have h1 : chunkAux B chunk (a :: l) = (chunk ++ [a]) :: chunkAux B [] l := by
        simp only [chunkAux, if_pos h]
      rw [h1] at hch
      rcases hrest : chunkAux B [] l with _ | ⟨c2, cs⟩
      · rw [hrest] at hch
        simp at hch
      · rw [hrest, List.dropLast_cons₂, List.mem_cons] at hch
        rcases hch with hch | hch
        · rw [hch]; exact hfull
        · rw [← hrest] at hch
          exact ih [] (by simp; omega) ch hch
    · have h1 : chunkAux B chunk (a :: l) = chunkAux B (chunk ++ [a]) l := by
        simp only [chunkAux, if_neg h]
      rw [h1] at hch
      exact ih (chunk ++ [a]) (by omega) ch hch

theorem chunkAux_ne_nil {α : Type} (B : Nat) :
    ∀ (l chunk : List α), chunk ≠ [] ∨ l ≠ [] → chunkAux B chunk l ≠ [] := by
  intro l
  induction l with
  | nil =>
    intro chunk h
    have hc : chunk ≠ [] := by
      rcases h with h | h
      · exact h
      · exact absurd rfl h
    have hne : chunk.isEmpty = false := by simpa using hc
    simp [chunkAux, hne]
  | cons a l ih =>
    intro chunk _
    by_cases h : B ≤ (chunk ++ [a]).length
    · have h1 : chunkAux B chunk (a :: l) = (chunk ++ [a]) :: chunkAux B [] l := by
        simp only [chunkAux, if_pos h]
      rw [h1]
      simp
    · have h1 : chunkAux B chunk (a :: l) = chunkAux B (chunk ++ [a]) l := by
        simp only [chunkAux, if_neg h]
      rw [h1]
      exact ih (chunk ++ [a]) (Or.inl (by simp))

theorem chunkAux_getLast {α : Type} (B : Nat) :
    ∀ (l chunk : List α), chunk.length < B → 0 < chunk.length + l.length →
      ∀ ch, (chunkAux B chunk l).getLast? = some ch →
        ch.length =
          if (chunk.length + l.length) % B = 0 then B else (chunk.length + l.length) % B := by
  intro l
  induction l with
  | nil =>
    intro chunk hlt hpos ch hch
    have hc : chunk ≠ [] := by
      intro hc
      rw [hc] at hpos
      simp at hpos
    have hne : chunk.isEmpty = false := by simpa using hc
    have h1 : chunkAux B chunk [] = [chunk] := by simp [chunkAux, hne]
    rw [h1, List.getLast?_singleton, Option.some.injEq] at hch
    rw [← hch]
    have hchpos : 0 < chunk.length := List.length_pos.mpr hc
    have hm : chunk.length % B = chunk.length := Nat.mod_eq_of_lt hlt
    simp only [List.length_nil, Nat.add_zero]
    rw [if_neg (by omega), hm]
  | cons a l ih =>
    intro chunk hlt hpos ch hch
    have hlen : (chunk ++ [a]).length = chunk.length + 1 := by simp
    by_cases h : B ≤ (chunk ++ [a]).length
    · have hfull : chunk.length + 1 = B := by omega
      have h1 : chunkAux B chunk (a :: l) = (chunk ++ [a]) :: chunkAux B [] l := by
        simp only [chunkAux, if_pos h]
      rw [h1] at hch
      by_cases hlnil : l = []
      · subst hlnil
        have h2 : chunkAux B ([] : List α) [] = [] := by simp [chunkAux]
        rw [h2, List.getLast?_singleton, Option.some.injEq] at hch
        rw [← hch]
        have he : chunk.length + (a :: ([] : List α)).length = B := by
          simp only [List.length_cons, List.length_nil]
          omega
        rw [he, Nat.mod_self, if_pos rfl, hlen]
        omega
      · have hne : chunkAux B [] l ≠ [] := chunkAux_ne_nil B l [] (Or.inr hlnil)
        obtain ⟨c2, cs, hrest⟩ := List.exists_cons_of_ne_nil hne
        rw [hrest, List.getLast?_cons_cons, ← hrest] at hch
        have hlpos : 0 < l.length := List.length_pos.mpr hlnil
        have := ih [] (by simp; omega) (by simpa using hlpos) ch hch
        have hmod : (chunk.length + (a :: l).length) % B = l.length % B := by
          have he : chunk.length + (a :: l).length = B + l.length := by
            simp only [List.length_cons]; omega
          rw [he, Nat.add_mod_left]
        rw [hmod]
        simpa using this
    · have h1 : chunkAux B chunk (a :: l) = chunkAux B (chunk ++ [a]) l := by
        simp only [chunkAux, if_neg h]
      rw [h1] at hch
      have := ih (chunk ++ [a]) (by omega) (by simp) ch hch
      have heq : (chunk ++ [a]).length + l.length = chunk.length + (a :: l).length := by
        simp only [List.length_append, List.length_singleton, List.length_cons, List.length_nil]
        omega
      rw [heq] at this
      exact this

/-! ## Retry-loop lemmas -/

theorem paicLoop_sum (cfg : SdCfg) (tz : Int) (gteT lteT : JVal) (maxR : Nat)
    (eo : Nat → Bool) (br : Nat → List Action → Except Unit (Nat × Nat))
    (chunk : List JVal)
    (hbr : ∀ k acts s f, br k acts = .ok (s, f) → s + f = acts.length) :
    ∀ (fuel rc k bc : Nat) (sleeps : List Nat) (s f : Nat),
      (paicLoop cfg tz gteT lteT maxR eo br chunk fuel rc k bc sleeps).result = some (s, f) →
      (paicLoop cfg tz gteT lteT maxR eo br chunk fuel rc k bc sleeps).exhausted = false →
      s + f = (processChunk cfg tz gteT lteT chunk).length := by
  intro fuel
  induction fuel with
  | zero =>
    intro rc k bc sleeps s f hres hexh
    by_cases hrc : rc < maxR
    · simp only [paicLoop, if_pos hrc] at hres
      exact absurd hres (by simp)
    · simp only [paicLoop, if_neg hrc] at hexh
      exact absurd hexh (by simp)
  | succ fuel ih =>
    intro rc k bc sleeps s f hres hexh
    by_cases hrc : rc < maxR
    · simp only [paicLoop, if_pos hrc] at hres hexh
      by_cases heo : eo k
      · rw [if_pos heo] at hres hexh
        by_cases hemp : (processChunk cfg tz gteT lteT chunk).isEmpty
        · rw [if_pos hemp] at hres
          simp only [Option.some.injEq, Prod.mk.injEq] at hres
          have : processChunk cfg tz gteT lteT chunk = [] := by
            simpa using hemp
          rw [this]
          simp [← hres.1, ← hres.2]
        · rw [if_neg hemp] at hres hexh
          rcases hbk : br k (processChunk cfg tz gteT lteT chunk) with e | sf
          · rw [hbk] at hres hexh
            exact ih _ _ _ _ s f hres hexh
          · rw [hbk] at hres
            simp only [Option.some.injEq] at hres
            rcases sf with ⟨s', f'⟩
            have hsf := hbr k _ s' f' hbk
            have e1 : s' = s := congrArg Prod.fst hres
            have e2 : f' = f := congrArg Prod.snd hres
            rw [← e1, ← e2]
            exact hsf
      · rw [if_neg heo] at hres hexh
        exact ih _ _ _ _ s f hres hexh
    · simp only [paicLoop, if_neg hrc] at hexh
      exact absurd hexh (by simp)

theorem paicLoop_diverges (cfg : SdCfg) (tz : Int) (gteT lteT : JVal) (maxR : Nat)
    (eo : Nat → Bool) (br : Nat → List Action → Except Unit (Nat × Nat))
    (chunk : List JVal)
    (hmaxR : 2 ≤ maxR) (heo : ∀ k, eo k = true)
    (hbr : ∀ k, br k (processChunk cfg tz gteT lteT chunk) = .error ())
    (hne : (processChunk cfg tz gteT lteT chunk).isEmpty = false) :
    ∀ (fuel rc k bc : Nat) (sleeps : List Nat), rc < maxR →
      (paicLoop cfg tz gteT lteT maxR eo br chunk fuel rc k bc sleeps).result = none := by
  intro fuel
  induction fuel with
  | zero =>
    intro rc k bc sleeps hrc
    simp only [paicLoop, if_pos hrc]
  | succ fuel ih =>
    intro rc k bc sleeps hrc
    simp only [paicLoop, if_pos hrc, heo k, if_pos, hne, Bool.false_eq_true, if_false, hbr k]
    exact ih _ _ _ _ (by omega)

/-! ## Run aggregation lemma -/

theorem runChunks_sum (cfg : SdCfg) (tz : Int) (gteT lteT : JVal) (maxR : Nat)
    (eo : Nat → Nat → Bool)
    (br : Nat → Nat → List Action → Except Unit (Nat × Nat)) (fuel : Nat)
    (hbr : ∀ i k acts s f, br i k acts = .ok (s, f) → s + f = acts.length) :
    ∀ (chunks : List (List JVal)) (i bigS bigF : Nat),
      runChunks cfg tz gteT lteT maxR eo br fuel chunks i = some (bigS, bigF, false) →
      bigS + bigF = mappedActionTotal cfg tz gteT lteT chunks := by
  intro chunks
  induction chunks with
  | nil =>
    intro i bigS bigF h
    simp only [runChunks, Option.some.injEq, Prod.mk.injEq] at h
    simp [mappedActionTotal, ← h.1, ← h.2.1]
  | cons c cs ih =>
    intro i bigS bigF h
    simp only [runChunks] at h
    rcases hres : (processAndIndexChunk cfg tz gteT lteT maxR (eo i) (br i) c fuel).result
      with _ | sf
    · rw [hres] at h
      exact absurd h (by simp)
    · rcases hrec : runChunks cfg tz gteT lteT maxR eo br fuel cs (i + 1) with _ | t
      · rw [hres, hrec] at h
        exact absurd h (by simp)
      · rcases t with ⟨S', F', E'⟩
        rw [hres, hrec] at h
        simp only [Option.some.injEq, Prod.mk.injEq] at h
        rcases sf with ⟨s, f⟩
        have hexh : (processAndIndexChunk cfg tz gteT lteT maxR (eo i) (br i) c fuel).exhausted
            = false := by
          rcases h with ⟨_, _, h3⟩
          exact (Bool.or_eq_false_iff.mp h3).1
        have hE : E' = false := by
          rcases h with ⟨_, _, h3⟩
          exact (Bool.or_eq_false_iff.mp h3).2
        have h1 := paicLoop_sum cfg tz gteT lteT maxR (eo i) (br i) c (hbr i)
          fuel 0 0 0 [] s f hres hexh
        have h2 := ih (i + 1) S' F' (by rw [hrec, hE])
        have hT : mappedActionTotal cfg tz gteT lteT (c :: cs) =
            (processChunk cfg tz gteT lteT c).length + mappedActionTotal cfg tz gteT lteT cs := by
          simp [mappedActionTotal]
        rw [hT, ← h.1, ← h.2.1]
        omega

theorem filterMap_id_map_some {α : Type} :
    ∀ (l : List (List α)), (l.map some).filterMap id = l := by
  intro l
  induction l with
  | nil => rfl
  | cons a l ih => simp [List.filterMap_cons, ih]

theorem filterMap_id_replicate_none {α : Type} :
    ∀ (n : Nat), (List.replicate n (none : Option (List α))).filterMap id = [] := by
  intro n
  induction n with
  | zero => rfl
  | succ n ih => simp [List.replicate, List.filterMap_cons, ih]

theorem filter_isNone_map_some {α : Type} :
    ∀ (l : List (List α)), (l.map some).filter Option.isNone = [] := by
  intro l
  induction l with
  | nil => rfl
  | cons a l ih => simp [List.filter, ih]

theorem filter_isNone_replicate_none {α : Type} :
    ∀ (n : Nat), (List.replicate n (none : Option (List α))).filter Option.isNone =
      List.replicate n none := by
  intro n
  induction n with
  | zero => rfl
  | succ n ih => simp [List.replicate, List.filter, ih]

/-- The chunks a non-cancelled, non-raising producer run enqueues. -/
theorem chunkProducer_chunks {α : Type} (B nproc : Nat) (docs : List α) :
    ((chunkProducer B nproc (fun _ => false) (docs.map SrcEvent.yield)).enq.filterMap id) =
      chunkAux B [] docs := by
  unfold chunkProducer
  rw [producerCore_no_stop]
  simp only [List.filterMap_append, filterMap_id_map_some, filterMap_id_replicate_none,
    List.append_nil, List.nil_append]

/-! ## The claims -/

/-- Claim C1, counterexample: a run that completes without a
FatalPipelineError (one chunk `[docGood, docNoTs]`, `maxRetries = 1`,
bulk writer always raising) returns `(0, 2)`, while only one document
of the chunk reached the mapping stage and survived to the bulk writer
— the claimed equality `totalSuccess + totalFailed = mapped count`
fails at this input. -/
theorem claim_c1_counterexample :
    runPipeline cfgPlain 0 1 (fun _ _ => true) (fun _ _ _ => .error ()) 4 [docGood, docNoTs]
      = .ok (some (0, 2, true)) ∧
    mappedActionTotal cfgPlain 0 .vnull .vnull
      ((chunkProducer cfgPlain.batchSize 1 (fun _ => false)
        ([docGood, docNoTs].map SrcEvent.yield)).enq.filterMap id) = 1 ∧
    (0 : Nat) + 2 ≠ 1 :=
  ⟨rfl, rfl, by decide⟩

/-- Claim C1 (amended): for every run that completes without a
FatalPipelineError *and in which no chunk returns through the
retries-exhausted exit*, provided the bulk writer reports
`success + failed = number of submitted actions`,
`totalSuccess + totalFailed` equals the number of documents that
reached the mapping stage and were not dropped before the bulk writer
(i.e. the total number of actions handed to the writer). -/
theorem claim_c1_amended (cfg : SdCfg) (tz : Int) (nproc : Nat)
    (eo : Nat → Nat → Bool) (br : Nat → Nat → List Action → Except Unit (Nat × Nat))
    (fuel : Nat) (docs : List JVal) (gteT lteT : JVal) (bigS bigF : Nat)
    (hbr : ∀ i k acts s f, br i k acts = .ok (s, f) → s + f = acts.length)
    (hth : getDataThresholds cfg = .ok (gteT, lteT))
    (hrun : runPipeline cfg tz nproc eo br fuel docs = .ok (some (bigS, bigF, false))) :
    bigS + bigF = mappedActionTotal cfg tz gteT lteT
      ((chunkProducer cfg.batchSize nproc (fun _ => false)
        (docs.map SrcEvent.yield)).enq.filterMap id) := by
  unfold runPipeline at hrun
  rw [hth] at hrun
  simp only [Except.ok.injEq] at hrun
  exact runChunks_sum cfg tz gteT lteT cfg.maxRetryConnection eo br fuel hbr _ 0 bigS bigF hrun

/-- Witness for `claim_c1_amended`: a run of one mapped document with a
first-attempt bulk success. -/
theorem claim_c1_amended_witness :
    runPipeline cfgPlain 0 1 (fun _ _ => true) (fun _ _ acts => .ok (acts.length, 0)) 2 [docGood]
      = .ok (some (1, 0, false)) ∧
    1 + 0 = mappedActionTotal cfgPlain 0 .vnull .vnull
      ((chunkProducer cfgPlain.batchSize 1 (fun _ => false)
        ([docGood].map SrcEvent.yield)).enq.filterMap id) :=
  ⟨rfl, claim_c1_amended cfgPlain 0 1 (fun _ _ => true) (fun _ _ acts => .ok (acts.length, 0))
    2 [docGood] .vnull .vnull 1 0
    (fun i k acts s f h => by
      injection h with h
      have e1 := congrArg Prod.fst h
      have e2 := congrArg Prod.snd h
      simp only at e1 e2
      omega)
    rfl rfl⟩

/-- Claim C2 is violated by the code (`retry_count = 0` is re-executed
at the top of every attempt, line 101 of `splitdex.py`): with
`maxRetries = 2` and a bulk writer that raises on every attempt, the
chunk loop never returns — for every amount of fuel the loop is still
running — instead of returning `(0, len(chunk))` after 2 attempts. -/
theorem claim_c2_code_bug : ∀ fuel : Nat,
    (processAndIndexChunk cfgPlain 0 .vnull .vnull 2 (fun _ => true) (fun _ _ => .error ())
      [docGood] fuel).result = none := by
  intro fuel
  exact paicLoop_diverges cfgPlain 0 .vnull .vnull 2 (fun _ => true) (fun _ _ => .error ())
    [docGood] (by omega) (fun _ => rfl) (fun _ => rfl) rfl fuel 0 0 0 [] (by omega)

/-- Claim C3, counterexample: a non-empty chunk whose mapping yields
zero actions is reported as `(0, 0)`, and `(0, 0)` differs from the
claimed `(0, len(chunk)) = (0, 1)`. -/
theorem claim_c3_counterexample :
    (processAndIndexChunk cfgPlain 0 .vnull .vnull 2 (fun _ => true) (fun _ _ => .error ())
      [docNoTs] 4).result = some (0, 0) ∧
    ((0 : Nat), (0 : Nat)) ≠ ((0 : Nat), ([docNoTs] : List JVal).length) :=
  ⟨rfl, by decide⟩

/-- Claim C3 (amended): a chunk whose mapping yields zero actions is
reported as `(0, 0)` — not `(0, len(chunk))` — and the bulk writer is
never invoked, provided the first attempt's connection step succeeds
and `maxRetries ≥ 1`. -/
theorem claim_c3_amended (cfg : SdCfg) (tz : Int) (gteT lteT : JVal) (maxR : Nat)
    (eo : Nat → Bool) (br : Nat → List Action → Except Unit (Nat × Nat))
    (chunk : List JVal) (fuel : Nat)
    (hmax : 1 ≤ maxR) (hfuel : 1 ≤ fuel) (heo : eo 0 = true)
    (hempty : processChunk cfg tz gteT lteT chunk = []) :
    (processAndIndexChunk cfg tz gteT lteT maxR eo br chunk fuel).result = some (0, 0) ∧
    (processAndIndexChunk cfg tz gteT lteT maxR eo br chunk fuel).bulkCalls = 0 := by
  obtain ⟨fuel', rfl⟩ : ∃ f', fuel = f' + 1 := ⟨fuel - 1, by omega⟩
  have h1 : (0 : Nat) < maxR := by omega
  unfold processAndIndexChunk
  constructor <;> simp [paicLoop, if_pos h1, heo, hempty]

/-- Witness for `claim_c3_amended`: the all-invalid chunk `[docNoTs]`. -/
theorem claim_c3_amended_witness :
    1 ≤ 2 ∧ 1 ≤ 4 ∧ processChunk cfgPlain 0 .vnull .vnull [docNoTs] = [] ∧
    ((processAndIndexChunk cfgPlain 0 .vnull .vnull 2 (fun _ => true) (fun _ _ => .error ())
        [docNoTs] 4).result = some (0, 0) ∧
      (processAndIndexChunk cfgPlain 0 .vnull .vnull 2 (fun _ => true) (fun _ _ => .error ())
        [docNoTs] 4).bulkCalls = 0) :=
  ⟨by decide, by decide, rfl,
    claim_c3_amended cfgPlain 0 .vnull .vnull 2 (fun _ => true) (fun _ _ => .error ())
      [docNoTs] 4 (by decide) (by decide) rfl rfl⟩

/-- Claim C4 is violated by the code: in range mode an out-of-window
document is recognised by `mappingData` (which returns the empty dict),
but `processChunk` still appends the degenerate action
`{"_index": None, "_id": None, "_source": None}` to the bulk request —
the document does contribute a `WriteAction` (the sibling in-range
document is mapped normally). -/
theorem claim_c4_code_bug :
    getDataThresholds cfgRange = .ok (.vint 1704067200, .vint 1706659200) ∧
    mappingData cfgRange 0 (.vint 1704067200) (.vint 1706659200) docOut = .ok none ∧
    processChunk cfgRange 0 (.vint 1704067200) (.vint 1706659200) [docGood, docOut] =
      [⟨some "logs-202401", some "1", some (.vobj [("ts", .vint 1704067200)])⟩,
       ⟨none, none, none⟩] :=
  ⟨rfl, rfl, rfl⟩

/-- Claim C5 is violated by the code: `SdElasticConnect` has no
attribute named `_client` (its client lives in `connectEs`), so the
guard `not hasattr(self.es, '_client') or not ping()` is always true
and `ensureConnectionES` performs a reconnect on every call — even on
an existing handle whose liveness probe would succeed. -/
theorem claim_c5_code_bug :
    hasattr (mkSdElasticConnect true) "_client" = false ∧
    (mkSdElasticConnect true).pingOk = true ∧
    ensureConnectionES (some (mkSdElasticConnect true)) true =
      (some (mkSdElasticConnect true), 1) :=
  ⟨rfl, rfl, rfl⟩

/-- Claim C6 is violated by the code: with `iso_format = "epoch_millis"`
configured, `getData` calls `dateToEpoch` with its default
`millis=False`, so the re-validation thresholds are epoch *seconds*
(1704067200 for 2024-01-01), not the claimed epoch milliseconds
(1704067200000). -/
theorem claim_c6_code_bug :
    getDataThresholds cfgMillis = .ok (.vint 1704067200, .vint 1706659200) ∧
    dateToEpoch (some "2024-01-01") true = .ok (some 1704067200000) ∧
    dateToEpoch (some "2024-01-31") true = .ok (some 1706659200000) ∧
    (1704067200 : Int) ≠ 1704067200000 :=
  ⟨rfl, rfl, rfl, by decide⟩

/-- Claim C7: on every exit path of the chunk producer — normal
exhaustion, cooperative cancellation at any point, or an error raised
while reading the source — exactly `numProcess()` termination sentinels
are enqueued onto the hand-off queue. -/
theorem claim_c7_sentinels {α : Type} (B c : Nat) (stop : Nat → Bool)
    (evs : List (SrcEvent α)) :
    ((chunkProducer B (numProcess c) stop evs).enq.filter Option.isNone).length
      = numProcess c := by
  unfold chunkProducer
  simp only [List.filter_append, filter_isNone_map_some, filter_isNone_replicate_none,
    List.nil_append, List.length_replicate]

/-- Claim C8 is violated by the code: the producer's exception handler
executes `self.stop_event.set()`, but the instance attribute is named
`stopEvent`, so the handler raises `AttributeError`, the cancellation
flag is never set, and the exception escapes the producer body. -/
theorem claim_c8_code_bug :
    streamingSplitDexAttrs.contains "stop_event" = false ∧
    (chunkProducer 2 3 (fun _ => false)
      ([SrcEvent.raiseErr] : List (SrcEvent JVal))).stopFlagSet = false ∧
    (chunkProducer 2 3 (fun _ => false)
      ([SrcEvent.raiseErr] : List (SrcEvent JVal))).escaped = true :=
  ⟨rfl, rfl, rfl⟩

/-- Claim C9: for a finite stream of `M` documents, batch size `B ≥ 1`
and no cancellation, the producer enqueues exactly `⌈M/B⌉` chunks, in
stream order, each of size `B` except the last, whose size is `M mod B`
(or `B` when `B` divides `M`). -/
theorem claim_c9_chunking {α : Type} (docs : List α) (B c : Nat) (hB : 1 ≤ B) :
    ((chunkProducer B (numProcess c) (fun _ => false)
        (docs.map SrcEvent.yield)).enq.filterMap id).flatten = docs ∧
    ((chunkProducer B (numProcess c) (fun _ => false)
        (docs.map SrcEvent.yield)).enq.filterMap id).length = (docs.length + B - 1) / B ∧
    (∀ ch ∈ ((chunkProducer B (numProcess c) (fun _ => false)
        (docs.map SrcEvent.yield)).enq.filterMap id).dropLast, ch.length = B) ∧
    (∀ ch, ((chunkProducer B (numProcess c) (fun _ => false)
        (docs.map SrcEvent.yield)).enq.filterMap id).getLast? = some ch →
      ch.length = if docs.length % B = 0 then B else docs.length % B) := by
  rw [chunkProducer_chunks]
  refine ⟨?_, ?_, ?_, ?_⟩
  · have := chunkAux_join B docs []
    simpa using this
  · have := chunkAux_length B docs [] (by simp only [List.length_nil]; omega)
    simpa using this
  · intro ch hch
    exact chunkAux_dropLast B docs [] (by simp only [List.length_nil]; omega) ch hch
  · intro ch hch
    by_cases hd : docs = []
    · subst hd
      have hnil : chunkAux B ([] : List α) [] = [] := by simp [chunkAux]
      rw [hnil] at hch
      simp at hch
    · have hpos : 0 < docs.length := List.length_pos.mpr hd
      have := chunkAux_getLast B docs [] (by simp only [List.length_nil]; omega)
        (by simpa using hpos) ch hch
      simpa using this

/-- Witness for `claim_c9_chunking`: five documents, batch size 2. -/
theorem claim_c9_chunking_witness :
    1 ≤ 2 ∧
    (((chunkProducer 2 (numProcess 0) (fun _ => false)
        (([0, 1, 2, 3, 4] : List Nat).map SrcEvent.yield)).enq.filterMap id).flatten
       = [0, 1, 2, 3, 4] ∧
     ((chunkProducer 2 (numProcess 0) (fun _ => false)
        (([0, 1, 2, 3, 4] : List Nat).map SrcEvent.yield)).enq.filterMap id).length
       = (([0, 1, 2, 3, 4] : List Nat).length + 2 - 1) / 2 ∧
     (∀ ch ∈ ((chunkProducer 2 (numProcess 0) (fun _ => false)
        (([0, 1, 2, 3, 4] : List Nat).map SrcEvent.yield)).enq.filterMap id).dropLast,
       ch.length = 2) ∧
     (∀ ch, ((chunkProducer 2 (numProcess 0) (fun _ => false)
        (([0, 1, 2, 3, 4] : List Nat).map SrcEvent.yield)).enq.filterMap id).getLast?
          = some ch →
       ch.length = if ([0, 1, 2, 3, 4] : List Nat).length % 2 = 0 then 2
         else ([0, 1, 2, 3, 4] : List Nat).length % 2)) :=
  ⟨by decide, claim_c9_chunking [0, 1, 2, 3, 4] 2 0 (by decide)⟩

/-- Claim C10: `validate_engine_config` accepts only configurations with
`1 ≤ batch_size ≤ 1000` and `1 ≤ max_retry_connection ≤ 10`, and any
value above 1000 (resp. 10) is rejected with an error reported. -/
theorem claim_c10_engine_bounds :
    (∀ (sec : Option EngineSection), (validate_engine_config sec).1 = true →
      ∃ (s : EngineSection) (nb nm : Int), sec = some s ∧
        s.batch_size = .intVal nb ∧ 1 ≤ nb ∧ nb ≤ 1000 ∧
        s.max_retry_connection = .intVal nm ∧ 1 ≤ nm ∧ nm ≤ 10) ∧
    (∀ (s : EngineSection) (n : Int), s.batch_size = .intVal n → 1000 < n →
      (validate_engine_config (some s)).1 = false ∧
      (validate_engine_config (some s)).2 ≠ []) ∧
    (∀ (s : EngineSection) (n : Int), s.max_retry_connection = .intVal n → 10 < n →
      (validate_engine_config (some s)).1 = false ∧
      (validate_engine_config (some s)).2 ≠ []) := by
  refine ⟨?_, ?_, ?_⟩
  · intro sec h
    match sec with
    | none => simp [validate_engine_config] at h
    | some s =>
      rcases s with ⟨bs, mrc, fd⟩
      cases bs with
      | missing => simp [validate_engine_config] at h
      | nonInt =>
        cases mrc with
        | missing => simp [validate_engine_config] at h
        | nonInt =>
          cases fd with
          | none => simp [validate_engine_config] at h
          | some fd => simp [validate_engine_config] at h
        | intVal nm =>
          cases fd with
          | none => simp [validate_engine_config] at h
          | some fd => simp [validate_engine_config] at h
      | intVal nb =>
        cases mrc with
        | missing => simp [validate_engine_config] at h
        | nonInt =>
          cases fd with
          | none => simp [validate_engine_config] at h
          | some fd => simp [validate_engine_config] at h
        | intVal nm =>
          cases fd with
          | none => simp [validate_engine_config] at h
          | some fd =>
            by_cases hb1 : nb < 1
            · simp [validate_engine_config, hb1] at h
            · by_cases hb2 : nb > 1000
              · simp [validate_engine_config, hb1, hb2] at h
              · by_cases hm1 : nm < 1
                · simp [validate_engine_config, hb1, hb2, hm1] at h
                · by_cases hm2 : nm > 10
                  · simp [validate_engine_config, hb1, hb2, hm1, hm2] at h
                  · exact ⟨⟨.intVal nb, .intVal nm, some fd⟩, nb, nm, rfl, rfl, by omega,
                      by omega, rfl, by omega, by omega⟩
  · intro s n hbs hn
    rcases s with ⟨bs, mrc, fd⟩
    simp only at hbs
    subst hbs
    cases mrc with
    | missing => exact ⟨rfl, by simp [validate_engine_config]⟩
    | nonInt =>
      cases fd with
      | none => exact ⟨rfl, by simp [validate_engine_config]⟩
      | some fd =>
        constructor
        · simp only [validate_engine_config]
          rw [if_neg (by omega : ¬ n < 1), if_pos hn]
          simp
        · simp only [validate_engine_config]
          rw [if_neg (by omega : ¬ n < 1), if_pos hn]
          simp
    | intVal nm =>
      cases fd with
      | none => exact ⟨rfl, by simp [validate_engine_config]⟩
      | some fd =>
        constructor
        · simp only [validate_engine_config]
          rw [if_neg (by omega : ¬ n < 1), if_pos hn]
          simp
        · simp only [validate_engine_config]
          rw [if_neg (by omega : ¬ n < 1), if_pos hn]
          simp
  · intro s n hmrc hn
    rcases s with ⟨bs, mrc, fd⟩
    simp only at hmrc
    subst hmrc
    cases bs with
    | missing => exact ⟨rfl, by simp [validate_engine_config]⟩
    | nonInt =>
      cases fd with
      | none => exact ⟨rfl, by simp [validate_engine_config]⟩
      | some fd =>
        constructor
        · simp [validate_engine_config]
        · simp [validate_engine_config]
    | intVal nb =>
      cases fd with
      | none => exact ⟨rfl, by simp [validate_engine_config]⟩
      | some fd =>
        constructor
        · simp only [validate_engine_config]
          rw [if_neg (by omega : ¬ n < 1), if_pos hn]
          simp
        · simp only [validate_engine_config]
          rw [if_neg (by omega : ¬ n < 1), if_pos hn]
          simp

/-- Witness for `claim_c10_engine_bounds`: an accepted configuration
and a rejected over-limit one. -/
theorem claim_c10_engine_bounds_witness :
    (∃ (s : EngineSection) (nb nm : Int),
      (some (⟨.intVal 500, .intVal 5, some "YYYYmm"⟩ : EngineSection)) = some s ∧
      s.batch_size = .intVal nb ∧ 1 ≤ nb ∧ nb ≤ 1000 ∧
      s.max_retry_connection = .intVal nm ∧ 1 ≤ nm ∧ nm ≤ 10) ∧
    ((validate_engine_config
        (some ⟨.intVal 2000, .intVal 5, some "YYYYmm"⟩)).1 = false ∧
      (validate_engine_config
        (some ⟨.intVal 2000, .intVal 5, some "YYYYmm"⟩)).2 ≠ []) :=
  ⟨claim_c10_engine_bounds.1 (some ⟨.intVal 500, .intVal 5, some "YYYYmm"⟩) rfl,
   claim_c10_engine_bounds.2.1 ⟨.intVal 2000, .intVal 5, some "YYYYmm"⟩ 2000 rfl (by decide)⟩

/-! ## Sanity checks of the embedding's evaluation -/

/-- `str.split` sanity. -/
theorem sanity_pySplit : pySplit "a.b" '.' = ["a", "b"] := rfl

/-- Calendar sanity: 2024-01-01 is day 19723 of the Unix epoch. -/
theorem sanity_daysFromCivil : daysFromCivil 2024 1 1 = 19723 := by decide

/-- Calendar sanity: the two conversions agree at day 19723. -/
theorem sanity_civilFromDays : civilFromDays 19723 = (2024, 1, 1) := by decide

/-- `dateToEpoch` sanity in seconds mode. -/
theorem sanity_dateToEpoch : dateToEpoch (some "2024-01-01") false = .ok (some 1704067200) := rfl

/-- `timestampToDate` sanity. -/
theorem sanity_timestampToDate :
    timestampToDate 0 (.vint 1704067200) "YYYYmm" = .ok "202401" := rfl

/-- `getNestedValue` sanity on a nested path. -/
theorem sanity_getNestedValue :
    getNestedValue (.vobj [("a", .vobj [("b", .vint 42)])]) "a.b" = .vint 42 := rfl

end SplitDex

